import Mathlib

/-!
Shallow embedding of the process-supervision core of
`src/services/minecraft/minecraft.js` (JTS Minecraft Server manager),
and proofs checking the natural-language specification against it.

The JavaScript module keeps a `runningServers` map from server id to an
instance record holding the spawned child process, an in-memory log array,
and a start time.  The functions modelled here are `startServer`,
`stopServer`, `sendCommand`, `getServerLogs`, `getServerLogsFromFile` and
`updateServerProperties`.  External collaborators (the Mongo store, the
filesystem, the child process) are modelled as explicit inputs; machine
time (`Date.now()`) is a `Nat` parameter measured in milliseconds.
-/

namespace JTS

/-- Source tag of a log entry, the `type` field of the log objects built in
`minecraft.js` (`'stdout'`, `'stderr'`, `'system'`, `'command'`). -/
inductive LogType where
  | stdout
  | stderr
  | system
  | command
deriving DecidableEq, Repr

/-- One entry of the in-memory log array: `{ timestamp, message, type }`
as built by the stdout/stderr/close handlers and by `sendCommand`. -/
structure LogEntry where
  timestamp : Nat
  message : String
  type : LogType
deriving DecidableEq, Repr

/-! ### Log buffer operations

`startServer` creates `const logs = []` with `MAX_LOGS =
config.minecraft.maxLogLines || 1000`.  The stdout handler, the stderr
handler and `sendCommand` all run

    logs.push(logEntry);
    if (logs.length > MAX_LOGS) logs.shift();

while the `close` handler runs only `logs.push(logEntry)` with no shift. -/

/-- Append with eviction, as in the stdout/stderr handlers of `startServer`
(lines 302-303 / 324-325) and in `sendCommand` (lines 465-467):
push the entry, then drop the oldest entry if the length now exceeds
`maxLogs`. -/
def pushBounded (maxLogs : Nat) (logs : List LogEntry) (e : LogEntry) :
    List LogEntry :=
  let l := logs ++ [e]
  if maxLogs < l.length then l.drop 1 else l

/-- Append without eviction, as in the `close` handler of `startServer`
(line 342): `logs.push(logEntry)` with no length check. -/
def pushUnbounded (logs : List LogEntry) (e : LogEntry) : List LogEntry :=
  logs ++ [e]

/-- A whole run of bounded appends starting from a buffer. -/
def pushBoundedAll (maxLogs : Nat) (logs : List LogEntry)
    (es : List LogEntry) : List LogEntry :=
  es.foldl (pushBounded maxLogs) logs

/-- Sample entries used in concrete scenarios. -/
def entryA : LogEntry := ⟨0, "A", LogType.stdout⟩

def entryB : LogEntry := ⟨1, "B", LogType.stdout⟩

def entryC : LogEntry := ⟨2, "C", LogType.stdout⟩

def entryD : LogEntry := ⟨3, "D", LogType.stdout⟩

/-- The system exit entry the `close` handler appends
(`Server process exited with code ...`). -/
def exitLogEntry (now : Nat) (code : Int) : LogEntry :=
  ⟨now, "Server process exited with code " ++ toString code, LogType.system⟩

/-! ### String helpers

`sendCommand` and the log filters use JavaScript's `String.includes` and
`toLowerCase`; these are modelled on the character lists of the strings. -/

/-- Whether the first list is an initial segment of the second
(the inner step of JavaScript's `String.includes`). -/
def listLeadsWith : List Char → List Char → Bool
  | [], _ => true
  | _ :: _, [] => false
  | a :: as, b :: bs => a == b && listLeadsWith as bs

/-- Whether `needle` occurs as a contiguous substring of the second list,
the semantics of JavaScript's `String.includes`. -/
def listContainsSub (needle : List Char) : List Char → Bool
  | [] => listLeadsWith needle []
  | c :: cs => listLeadsWith needle (c :: cs) || listContainsSub needle cs

/-- JavaScript `hay.includes(needle)`. -/
def strIncludes (hay needle : String) : Bool :=
  listContainsSub needle.toList hay.toList

/-- Split a character list at every occurrence of `sep` (JavaScript
`String.split` with a one-character separator). -/
def splitOnChar (sep : Char) : List Char → List (List Char)
  | [] => [[]]
  | c :: cs =>
    if c == sep then
      [] :: splitOnChar sep cs
    else
      match splitOnChar sep cs with
      | [] => [[c]]
      | g :: gs => (c :: g) :: gs

/-- ASCII lower-casing of a string (JavaScript `toLowerCase` restricted to
the ASCII range). -/
def lowerStr (s : String) : String :=
  String.mk (s.toList.map Char.toLower)

/-! ### getServerLogs (in-memory branch)

`getServerLogs(serverId, options)` looks the id up in `runningServers`;
with a live instance it copies the instance's log array, filters by
`options.type`, then by a case-insensitive `options.search`, then applies
`logs.slice(-Math.min(limit, logs.length))` with
`limit = options.limit || 100`.  Without an instance it delegates to
`getServerLogsFromFile`. -/

/-- Filter options `{ type, search, limit }` of `getServerLogs`; `none`
models an absent (or falsy) field. -/
structure LogFilter where
  type? : Option LogType
  search? : Option String
  limit? : Option Nat
deriving Repr

/-- JavaScript `options.limit || drf`: an absent or zero limit falls back
to the default. -/
def jsOrNat (o : Option Nat) (drf : Nat) : Nat :=
  match o with
  | none => drf
  | some n => if n == 0 then drf else n

/-- The `options.type` filter of `getServerLogs`. -/
def filterByType (t? : Option LogType) (logs : List LogEntry) :
    List LogEntry :=
  match t? with
  | none => logs
  | some t => logs.filter (fun l => l.type == t)

/-- The `options.search` filter of `getServerLogs`:
`log.message.toLowerCase().includes(options.search.toLowerCase())`. -/
def filterBySearch (s? : Option String) (logs : List LogEntry) :
    List LogEntry :=
  match s? with
  | none => logs
  | some s =>
    logs.filter (fun l => strIncludes (lowerStr l.message) (lowerStr s))

/-- JavaScript `logs.slice(-k)`: the last `k` elements, except that
`slice(-0)` is `slice(0)`, the whole array. -/
def jsSliceNeg (k : Nat) (logs : List LogEntry) : List LogEntry :=
  if k = 0 then logs else logs.drop (logs.length - k)

/-- The in-memory branch of `getServerLogs` (lines 495-512). -/
def getServerLogsMem (logs : List LogEntry) (opts : LogFilter) :
    List LogEntry :=
  let l1 := filterByType opts.type? logs
  let l2 := filterBySearch opts.search? l1
  let limit := jsOrNat opts.limit? 100
  jsSliceNeg (min limit l2.length) l2

/-- Lookup in a JavaScript `Map` modelled as an association list
(`runningServers.get(id)`). -/
def lookupMap {α : Type} (m : List (String × α)) (k : String) : Option α :=
  match m.find? (fun p => p.1 == k) with
  | some p => some p.2
  | none => none

/-- Result of `getServerLogs`: logs served from the in-memory buffer of a
live instance, or a delegation to `getServerLogsFromFile`. -/
inductive LogsResult where
  | fromMem (logs : List LogEntry)
  | fromFile
deriving DecidableEq, Repr

/-- Model of `getServerLogs(serverId, options)` (lines 486-517): dispatch on
`runningServers.get(serverId)`.  The registry is modelled as a map from id
to that instance's log array. -/
def getServerLogsModel (reg : List (String × List LogEntry)) (id : String)
    (opts : LogFilter) : LogsResult :=
  match lookupMap reg id with
  | some logs => LogsResult.fromMem (getServerLogsMem logs opts)
  | none => LogsResult.fromFile

/-- The last `n` entries of a list (its suffix of length `min n length`). -/
def lastN (n : Nat) (logs : List LogEntry) : List LogEntry :=
  logs.drop (logs.length - n)

/-! ### Log file reader

`getServerLogsFromFile` splits the persisted `latest.log` into lines and
maps each non-blank line through

    line.match(/\[(\d{2}:\d{2}:\d{2})\] \[([^\]]+)\]: (.+)/)

building `{ timestamp, message: line, type }` from the match, with
`type = 'stderr'` iff the level group contains `'ERROR'`, and the
timestamp rebuilt from the `HH:MM:SS` group on the current calendar day;
a non-matching line becomes `{ timestamp: Date.now(), message: line,
type: 'stdout' }`. -/

/-- A successful match of the log-line regular expression: the three
capture groups (time, level, remainder). -/
structure LineMatch where
  timeStr : String
  level : String
  rest : String
deriving DecidableEq, Repr

/-- Whether JavaScript's `.` matches a character: anything but a line
terminator. -/
def jsDotMatches (c : Char) : Bool :=
  c != '\n' && c != '\r' && c != '\u2028' && c != '\u2029'

/-- Attempt the regular expression
`\[(\d{2}:\d{2}:\d{2})\] \[([^\]]+)\]: (.+)` at the head of the character
list: a bracketed `HH:MM:SS` time of two-digit fields, a space, a
bracketed non-empty level (greedy `[^\]]+` stops at the first `]`, and no
shorter choice can be followed by `]`), then `: ` and a non-empty greedy
run of `.`-matching characters. -/
def matchHere : List Char → Option LineMatch
  | '[' :: h1 :: h2 :: ':' :: m1 :: m2 :: ':' :: s1 :: s2 :: ']' :: ' ' ::
      '[' :: rest =>
    if h1.isDigit && h2.isDigit && m1.isDigit && m2.isDigit &&
        s1.isDigit && s2.isDigit then
      match rest.takeWhile (fun c => c != ']'),
          rest.dropWhile (fun c => c != ']') with
      | lc :: lcs, ']' :: ':' :: ' ' :: msg =>
        match msg with
        | c :: _ =>
          if jsDotMatches c then
            some ⟨String.mk [h1, h2, ':', m1, m2, ':', s1, s2],
              String.mk (lc :: lcs), String.mk (msg.takeWhile jsDotMatches)⟩
          else none
        | [] => none
      | _, _ => none
    else none
  | _ => none

/-- Unanchored search of the regular expression, leftmost match first, as
JavaScript `String.match` performs it. -/
def searchMatch : List Char → Option LineMatch
  | [] => none
  | c :: cs =>
    match matchHere (c :: cs) with
    | some r => some r
    | none => searchMatch cs

/-- JavaScript `Number` on a decimal digit string, on the character list. -/
def numValChars (cs : List Char) : Nat :=
  cs.foldl (fun a c => a * 10 + (c.toNat - 48)) 0

/-- Seconds past midnight encoded by the `HH:MM:SS` capture group, as the
source computes it: `timeStr.split(':').map(Number)` fed into the
hour/minute/second fields of a `Date` on the current day. -/
def clockSeconds (timeStr : String) : Nat :=
  match splitOnChar ':' timeStr.toList with
  | [h, m, s] => (numValChars h * 60 + numValChars m) * 60 + numValChars s
  | _ => 0

/-- The per-line mapping of `getServerLogsFromFile` (lines 544-568).
`now` is `Date.now()` in milliseconds and `dayStart` the epoch
milliseconds of the current day's midnight, so that
`new Date(year, month, date, hours, minutes, seconds).getTime()` is
`dayStart + 1000 * clockSeconds`. -/
def parseLogLine (now dayStart : Nat) (line : String) : LogEntry :=
  match searchMatch line.toList with
  | some m =>
    { timestamp := dayStart + clockSeconds m.timeStr * 1000
      message := line
      type := if strIncludes m.level "ERROR" then LogType.stderr
        else LogType.stdout }
  | none =>
    { timestamp := now
      message := line
      type := LogType.stdout }

/-- The whole of `getServerLogsFromFile` after the file read (lines
539-586): split into lines, keep the non-blank ones, parse each, then
apply the same type/search/limit filters as the in-memory branch. -/
def getServerLogsFromFileModel (now dayStart : Nat) (content : String)
    (opts : LogFilter) : List LogEntry :=
  let lines := (splitOnChar '\n' content.toList).map String.mk
  let logs := (lines.filter
      (fun l => l.toList.any (fun c => !c.isWhitespace))).map
    (parseLogLine now dayStart)
  let l1 := filterByType opts.type? logs
  let l2 := filterBySearch opts.search? l1
  let limit := jsOrNat opts.limit? 100
  jsSliceNeg (min limit l2.length) l2

/-! ### startServer control flow

`startServer(serverId, io)` (lines 243-385): inside a `try`, it returns an
already-running error if `runningServers.has(serverId)`; loads the record
(`throw` when absent); runs `fs.ensureDir(server.path)` when the working
directory is missing; `throw`s when the jar file is absent; spawns the
java process; attaches the handlers; and only then inserts the instance
into `runningServers`.  Every `throw` lands in the `catch`, which returns
an error result; all `throw`s happen before the insertion.  The spawn step
is modelled as a fallible external call. -/

/-- Result of one `startServer` call. -/
inductive StartResult where
  | alreadyRunning
  | notFound
  | jarMissing
  | spawnFailed
  | started
deriving DecidableEq, Repr

/-- Environment a `startServer` call observes: registry membership of the
id, presence of the database record, presence of the working directory and
the jar on disk, and whether the spawn succeeds. -/
structure StartEnv where
  inMap : Bool
  hasRecord : Bool
  dirOnDisk : Bool
  jarOnDisk : Bool
  spawnOk : Bool
deriving DecidableEq, Repr

/-- Observable outcome of `startServer`: the result, whether an instance
for the id is registered after the call, whether `ensureDir` created the
working directory, and whether a process was spawned. -/
structure StartOutcome where
  result : StartResult
  inMapAfter : Bool
  dirCreated : Bool
  spawned : Bool
deriving DecidableEq, Repr

/-- Model of `startServer` (lines 243-385) as a function of its environment.  A jar
check in a directory that `ensureDir` just created always fails, since a
fresh directory holds no file. -/
def startServerModel (e : StartEnv) : StartOutcome :=
  if e.inMap then
    ⟨StartResult.alreadyRunning, true, false, false⟩
  else if !e.hasRecord then
    ⟨StartResult.notFound, false, false, false⟩
  else
    let dirCreated := !e.dirOnDisk
    let jarThere := e.dirOnDisk && e.jarOnDisk
    if !jarThere then
      ⟨StartResult.jarMissing, false, dirCreated, false⟩
    else if !e.spawnOk then
      ⟨StartResult.spawnFailed, false, dirCreated, false⟩
    else
      ⟨StartResult.started, true, dirCreated, true⟩

/-! ### Two concurrent startServer calls on the same id

`startServer` runs on the Node.js event loop: code between two `await`s is
atomic, and the call yields at `await MinecraftServer.findById(serverId)`
(line 251) after the `runningServers.has(serverId)` guard (line 246) and
before the synchronous block that spawns the process and runs
`runningServers.set(serverId, ...)` (lines 282-365).  Two concurrent calls
on the same id are therefore two tasks of two atomic steps each, the guard
step and the spawn-and-insert step, interleaved in any order. -/

/-- Shared state of the race: registry membership for the one contested
id, how many processes have been spawned for it, and how many
already-running errors were returned. -/
structure RaceState where
  inMap : Bool
  spawned : Nat
  errors : Nat
deriving DecidableEq, Repr

/-- Program counter of one `startServer` task: before the registry guard,
resumed after the awaited database read and about to spawn-and-insert, or
finished. -/
inductive StartPC where
  | atCheck
  | atSpawn
  | doneStart
deriving DecidableEq, Repr

/-- One atomic step of one `startServer` task. -/
def stepStart : RaceState → StartPC → RaceState × StartPC
  | s, StartPC.atCheck =>
    if s.inMap then
      ({ s with errors := s.errors + 1 }, StartPC.doneStart)
    else
      (s, StartPC.atSpawn)
  | s, StartPC.atSpawn =>
    ({ s with inMap := true, spawned := s.spawned + 1 }, StartPC.doneStart)
  | s, StartPC.doneStart => (s, StartPC.doneStart)

/-- Configuration of the two racing tasks. -/
structure RaceConfig where
  st : RaceState
  pcA : StartPC
  pcB : StartPC
deriving DecidableEq, Repr

/-- Schedule one step of task A (`false`) or task B (`true`). -/
def stepTask (c : RaceConfig) (taskB : Bool) : RaceConfig :=
  if taskB then
    let p := stepStart c.st c.pcB
    ⟨p.1, c.pcA, p.2⟩
  else
    let p := stepStart c.st c.pcA
    ⟨p.1, p.2, c.pcB⟩

/-- Run a whole schedule. -/
def runSched (sched : List Bool) (c : RaceConfig) : RaceConfig :=
  sched.foldl stepTask c

/-- Both tasks start at the guard with the id unregistered and nothing
spawned. -/
def raceInit : RaceConfig :=
  ⟨⟨false, 0, 0⟩, StartPC.atCheck, StartPC.atCheck⟩

/-! ### stopServer and the close handler

`stopServer(serverId, force)` (lines 393-429): with no instance it returns
the not-running error.  With `force` it calls `process.kill('SIGKILL')`
and returns the success result immediately.  Otherwise it writes `stop\n`
to stdin, arms a `setTimeout` of `config.minecraft.stopTimeout || 30000`
milliseconds whose callback kills the process if the id is still
registered, and returns a promise that resolves, with the graceful-stop
message, on the process `close` event, clearing the timer.  The `close`
event also runs the handler `startServer` registered (lines 335-357),
which appends the system exit entry and deletes the id from
`runningServers`. -/

/-- Observable outcome of one `stopServer` call.  `returnAfterClose` says
the call returned only after the process `close` event (the OS-confirmed
termination); `killIssued` says a SIGKILL was sent by this call or its
timer. -/
structure StopOutcome where
  isError : Bool
  message : String
  stopCmdWritten : Bool
  killIssued : Bool
  returnAfterClose : Bool
deriving DecidableEq, Repr

/-- Model of `stopServer` as a function of the registry state and of the process's
behaviour: `exitsAt = some t` means the process exits on its own `t`
milliseconds after the stop command, `none` that it ignores the command.
When the timer fires first, the id is still registered (only the `close`
handler removes it), so the timer's kill is issued; the kill produces the
`close` event the returned promise waits on. -/
def stopServerModel (stopTimeoutMs : Nat) (hasInstance : Bool)
    (force : Bool) (exitsAt : Option Nat) : StopOutcome :=
  if !hasInstance then
    ⟨true, "Server is not running", false, false, false⟩
  else if force then
    ⟨false, "Server forcefully stopped", false, true, false⟩
  else
    match exitsAt with
    | some t =>
      if t < stopTimeoutMs then
        ⟨false, "Server stopped gracefully", true, false, true⟩
      else
        ⟨false, "Server stopped gracefully", true, true, true⟩
    | none =>
      ⟨false, "Server stopped gracefully", true, true, true⟩

/-- Effect of the `close` handler registered by `startServer` (lines
335-357): the exit entry is appended - with no eviction - and the id is
deleted from `runningServers`. -/
structure CloseEffect where
  logsAfter : List LogEntry
  inMapAfter : Bool
deriving DecidableEq, Repr

/-- The `close` handler as a function of the buffer and the exit code. -/
def closeHandlerModel (now : Nat) (logs : List LogEntry) (code : Int) :
    CloseEffect :=
  ⟨pushUnbounded logs (exitLogEntry now code), false⟩

/-! ### sendCommand

`sendCommand(serverId, command)` (lines 451-478): with no instance in
`runningServers` it returns the not-running error.  Otherwise it appends
the command entry to the instance's buffer (bounded append), writes the
command to the process's stdin, and returns the success result.  When the
OS process behind the instance has already exited, the stdin write does
not throw synchronously: Node emits the EPIPE / stream-destroyed error
asynchronously, via a later tick, on the stream's `error` event - to which
nothing in this module listens - so the call still returns the success
result and its `catch` never runs for this scenario; the failure only
surfaces after the call has returned. -/

/-- Result of one `sendCommand` call. -/
inductive SendResult where
  | notRunningErr
  | sent
deriving DecidableEq, Repr

/-- Outcome of `sendCommand`: the result, the instance's buffer after the
call (empty when there was no instance), and whether a stream write error
is pending, to be emitted asynchronously after the call returns. -/
structure SendOutcome where
  result : SendResult
  logsAfter : List LogEntry
  asyncWriteErrorPending : Bool
deriving DecidableEq, Repr

/-- Model of `sendCommand` as a function of the looked-up instance: `none`
when the id is not in `runningServers`, otherwise the instance's buffer
paired with whether its OS process has already exited (the `close` event
that would remove the map entry may still be pending).  A write to the
stdin of an exited child fails only asynchronously, so the synchronous
result is the success result either way. -/
def sendCommandModel (maxLogs : Nat) (now : Nat)
    (inst? : Option (List LogEntry × Bool)) (cmd : String) : SendOutcome :=
  match inst? with
  | none => ⟨SendResult.notRunningErr, [], false⟩
  | some (logs, exited) =>
    let entry : LogEntry := ⟨now, "Command executed: " ++ cmd, LogType.command⟩
    let logsAfter := pushBounded maxLogs logs entry
    ⟨SendResult.sent, logsAfter, exited⟩

/-! ### updateServerProperties

`updateServerProperties(serverId, newProperties)` (lines 201-235): throws
when the record is absent; throws `Cannot update properties while server
is running` when `runningServers.has(serverId)`; otherwise merges
`{ ...server.properties, ...newProperties }` into the record when
`newProperties` is non-empty, saves it, and writes the merged pairs as the
`server.properties` file.  Both throws happen before any mutation. -/

/-- Result of one `updateServerProperties` call. -/
inductive UpdateResult where
  | notFoundErr
  | runningErr
  | updated (props : List (String × String))
deriving DecidableEq, Repr

/-- Environment of the call: record presence, registry membership, and the
record's stored properties (unique keys, insertion-ordered). -/
structure PropsEnv where
  hasRecord : Bool
  isRunning : Bool
  storedProps : List (String × String)
deriving DecidableEq, Repr

/-- Outcome: the result, the stored properties after the call, and the
pairs written to the `server.properties` file (`none` when the call wrote
no file). -/
structure PropsOutcome where
  result : UpdateResult
  storedAfter : List (String × String)
  fileWritten? : Option (List (String × String))
deriving DecidableEq, Repr

/-- JavaScript object spread `{ ...old, ...nw }` on insertion-ordered
unique-key pair lists: keys of `old` keep their position with the value of
`nw` when overridden, and keys only in `nw` follow in their order. -/
def spreadMerge (old nw : List (String × String)) :
    List (String × String) :=
  (old.map (fun p =>
      match lookupMap nw p.1 with
      | some v => (p.1, v)
      | none => p)) ++
    nw.filter (fun q => (lookupMap old q.1).isNone)

/-- Model of `updateServerProperties` as a function of its environment. -/
def updateServerPropertiesModel (e : PropsEnv)
    (newProps : List (String × String)) : PropsOutcome :=
  if !e.hasRecord then
    ⟨UpdateResult.notFoundErr, e.storedProps, none⟩
  else if e.isRunning then
    ⟨UpdateResult.runningErr, e.storedProps, none⟩
  else
    let merged :=
      if newProps.isEmpty then e.storedProps
      else spreadMerge e.storedProps newProps
    ⟨UpdateResult.updated merged, merged, some merged⟩

/-! ## Helper lemmas -/

lemma pushBounded_length_le (maxLogs : Nat) (logs : List LogEntry)
    (e : LogEntry) (h : logs.length ≤ maxLogs) :
    (pushBounded maxLogs logs e).length ≤ maxLogs := by
  unfold pushBounded
  have hlen : (logs ++ [e]).length = logs.length + 1 := by simp
  by_cases hc : maxLogs < (logs ++ [e]).length
  · simp only [hc, if_true, List.length_drop]
    omega
  · simp only [hc, if_false]
    omega

/-- After a bounded append the buffer is exactly the last `maxLogs` entries
of the old buffer followed by the new entry, provided the buffer never
exceeded the bound before. -/
lemma pushBounded_eq_lastN (maxLogs : Nat) (logs : List LogEntry)
    (e : LogEntry) (h : logs.length ≤ maxLogs) :
    pushBounded maxLogs logs e =
      (logs ++ [e]).drop ((logs ++ [e]).length - maxLogs) := by
  unfold pushBounded
  have hlen : (logs ++ [e]).length = logs.length + 1 := by simp
  by_cases hc : maxLogs < (logs ++ [e]).length
  · simp only [hc, if_true]
    have h1 : (logs ++ [e]).length - maxLogs = 1 := by omega
    rw [h1]
  · simp only [hc, if_false]
    have h0 : (logs ++ [e]).length - maxLogs = 0 := by omega
    rw [h0, List.drop_zero]

lemma jsSliceNeg_min_eq_lastN (limit : Nat) (logs : List LogEntry)
    (h : limit ≠ 0) :
    jsSliceNeg (min limit logs.length) logs = lastN limit logs := by
  unfold jsSliceNeg lastN
  by_cases h0 : min limit logs.length = 0
  · simp only [h0, if_true]
    have : logs.length = 0 := by omega
    rw [List.length_eq_zero] at this
    simp [this]
  · simp only [h0, if_false]
    have : logs.length - min limit logs.length = logs.length - limit := by
      omega
    rw [this]

lemma jsOrNat_ne_zero (o : Option Nat) : jsOrNat o 100 ≠ 0 := by
  unfold jsOrNat
  match o with
  | none => simp
  | some n =>
    by_cases hn : n == 0
    · simp [hn]
    · simp [hn]
      simpa using hn

lemma lastN_length_le (n : Nat) (logs : List LogEntry) :
    (lastN n logs).length ≤ n := by
  unfold lastN
  simp [List.length_drop]
  omega

lemma lastN_sublist (n : Nat) (logs : List LogEntry) :
    (lastN n logs).Sublist logs :=
  List.drop_sublist _ _

lemma filterByType_sublist (t? : Option LogType) (logs : List LogEntry) :
    (filterByType t? logs).Sublist logs := by
  unfold filterByType
  match t? with
  | none => exact List.Sublist.refl _
  | some t => exact List.filter_sublist _

lemma filterBySearch_sublist (s? : Option String) (logs : List LogEntry) :
    (filterBySearch s? logs).Sublist logs := by
  unfold filterBySearch
  match s? with
  | none => exact List.Sublist.refl _
  | some s => exact List.filter_sublist _

lemma listLeadsWith_iff (n h : List Char) :
    listLeadsWith n h = true ↔ ∃ r, h = n ++ r := by
  induction n generalizing h with
  | nil => simp [listLeadsWith]
  | cons a as ih =>
    cases h with
    | nil =>
      simp [listLeadsWith]
    | cons b bs =>
      simp only [listLeadsWith, Bool.and_eq_true, beq_iff_eq, ih,
        List.cons_append, List.cons.injEq]
      constructor
      · rintro ⟨rfl, r, rfl⟩
        exact ⟨r, rfl, rfl⟩
      · rintro ⟨r, rfl, rfl⟩
        exact ⟨rfl, r, rfl⟩

lemma listContainsSub_iff (needle hay : List Char) :
    listContainsSub needle hay = true ↔
      ∃ l r, hay = l ++ (needle ++ r) := by
  induction hay with
  | nil =>
    simp only [listContainsSub, listLeadsWith_iff]
    constructor
    · rintro ⟨r, hr⟩
      exact ⟨[], r, by simpa using hr⟩
    · rintro ⟨l, r, hr⟩
      have h1 : l = [] ∧ needle ++ r = [] := by
        have := hr.symm
        exact List.append_eq_nil.mp this
      exact ⟨r, by rw [h1.2]⟩
  | cons c cs ih =>
    simp only [listContainsSub, Bool.or_eq_true, listLeadsWith_iff, ih]
    constructor
    · rintro (⟨r, hr⟩ | ⟨l, r, hr⟩)
      · exact ⟨[], r, by simpa using hr⟩
      · exact ⟨c :: l, r, by simp [hr]⟩
    · rintro ⟨l, r, hr⟩
      match l, hr with
      | [], hr => exact Or.inl ⟨r, by simpa using hr⟩
      | a :: l', hr =>
        rw [List.cons_append, List.cons.injEq] at hr
        exact Or.inr ⟨l', r, hr.2⟩

/-- Correctness of the substring test: `hay.includes(needle)` holds exactly when `needle` occurs contiguously
inside `hay`. -/
lemma strIncludes_iff (hay needle : String) :
    strIncludes hay needle = true ↔
      ∃ l r, hay.toList = l ++ (needle.toList ++ r) :=
  listContainsSub_iff needle.toList hay.toList

lemma parseLogLine_of_match (now dayStart : Nat) (line : String)
    (m : LineMatch) (h : searchMatch line.toList = some m) :
    parseLogLine now dayStart line =
      ⟨dayStart + clockSeconds m.timeStr * 1000, line,
        if strIncludes m.level "ERROR" then LogType.stderr
        else LogType.stdout⟩ := by
  unfold parseLogLine
  rw [h]

lemma parseLogLine_of_no_match (now dayStart : Nat) (line : String)
    (h : searchMatch line.toList = none) :
    parseLogLine now dayStart line = ⟨now, line, LogType.stdout⟩ := by
  unfold parseLogLine
  rw [h]

/-! ## Claim theorems -/

/-- C1: the claim says two concurrent `start(id)` calls always yield
exactly one live process and exactly one already-running error.  The code
violates it: `startServer` yields at `await MinecraftServer.findById`
between the `runningServers.has` guard and `runningServers.set`, so the
schedule in which both tasks pass the guard before either inserts spawns
two processes and returns no already-running error; the purely sequential
schedule does satisfy the claim, showing the interleaving is what breaks
it. -/
theorem claim_C1_start_race :
    (runSched [false, true, false, true] raceInit).st.spawned = 2 ∧
      (runSched [false, true, false, true] raceInit).st.errors = 0 ∧
      (runSched [false, true, false, true] raceInit).pcA =
        StartPC.doneStart ∧
      (runSched [false, true, false, true] raceInit).pcB =
        StartPC.doneStart ∧
      (runSched [false, false, true] raceInit).st.spawned = 1 ∧
      (runSched [false, false, true] raceInit).st.errors = 1 := by
  decide

/-- C2: the claim says the buffer never exceeds the capacity `N` under
stdout, stderr, command and system-exit appends.  The bounded appends do
keep the last `N` entries (with `N = 3`, appending A, B, C, D leaves
[B, C, D]), but the `close` handler appends the system exit entry without
evicting, so a full buffer of 3 grows to 4 entries. -/
theorem claim_C2_exit_entry_overflows_buffer :
    pushBoundedAll 3 [] [entryA, entryB, entryC, entryD] =
        [entryB, entryC, entryD] ∧
      (closeHandlerModel 9 (pushBoundedAll 3 [] [entryA, entryB, entryC])
          0).logsAfter =
        [entryA, entryB, entryC, exitLogEntry 9 0] ∧
      3 <
        (closeHandlerModel 9 (pushBoundedAll 3 [] [entryA, entryB, entryC])
            0).logsAfter.length := by
  decide

/-- C3: a non-forced `stop` on a running process that exits gracefully
before the timeout never issues the kill (the timer is cleared and the
graceful message returned); one whose process ignores the stop command to
or past the timeout always issues the kill, and the resulting close event
still drives the registry removal (the close handler deletes the id). -/
theorem claim_C3_stop_protocol (timeout t now : Nat)
    (logs : List LogEntry) (code : Int) :
    (t < timeout →
      stopServerModel timeout true false (some t) =
        ⟨false, "Server stopped gracefully", true, false, true⟩) ∧
      (timeout ≤ t →
        (stopServerModel timeout true false (some t)).killIssued = true ∧
          (stopServerModel timeout true false (some t)).returnAfterClose =
            true) ∧
      ((stopServerModel timeout true false none).killIssued = true ∧
        (stopServerModel timeout true false none).returnAfterClose =
          true) ∧
      (closeHandlerModel now logs code).inMapAfter = false := by
  refine ⟨?_, ?_, ?_, ?_⟩
  · intro h
    simp [stopServerModel, h]
  · intro h
    have hn : ¬t < timeout := by omega
    simp [stopServerModel, hn]
  · simp [stopServerModel]
  · simp [closeHandlerModel]

/-- Witness for C3 at timeout 30000: a process exiting after 5 ms is
stopped without a kill; one that ignores the command is killed. -/
theorem claim_C3_stop_protocol_witness :
    stopServerModel 30000 true false (some 5) =
        ⟨false, "Server stopped gracefully", true, false, true⟩ ∧
      (stopServerModel 30000 true false none).killIssued = true :=
  ⟨(claim_C3_stop_protocol 30000 5 0 [] 0).1 (by decide),
    (claim_C3_stop_protocol 30000 5 0 [] 0).2.2.1.1⟩

/-- C4: the claim says a forced stop returns only once the OS has
confirmed termination.  The code returns the success result immediately
after `process.kill('SIGKILL')`, without awaiting the close event: on a
running instance the forced path reports success with
`returnAfterClose = false`. -/
theorem claim_C4_force_stop_counterexample :
    (stopServerModel 30000 true true none).isError = false ∧
      (stopServerModel 30000 true true none).killIssued = true ∧
      (stopServerModel 30000 true true none).returnAfterClose = false := by
  decide

/-- C4 (amended): a forced stop on a running instance sends an immediate
SIGKILL and returns success at once, without waiting for the exit
notification; the handle is removed later, by the close handler the exit
eventually triggers. -/
theorem claim_C4_force_stop_immediate (timeout now : Nat)
    (exitsAt : Option Nat) (logs : List LogEntry) (code : Int) :
    stopServerModel timeout true true exitsAt =
        ⟨false, "Server forcefully stopped", false, true, false⟩ ∧
      (closeHandlerModel now logs code).inMapAfter = false := by
  constructor
  · simp [stopServerModel]
  · simp [closeHandlerModel]

/-- C5: a persisted log line matching the bracketed `HH:MM:SS` time,
bracketed level, `: ` and text pattern becomes an entry tagged `stderr`
exactly when the level contains `ERROR` (else `stdout`), whose message is
the full original line and whose timestamp is the parsed time-of-day on
the current day; a non-matching line becomes a `stdout` entry carrying the
whole line and the reader's current time.  In particular
`[12:34:56] [Server thread/ERROR]: Oops` parses to `stderr`, the full
line, and time-of-day 12:34:56. -/
theorem claim_C5_log_file_reader (now dayStart : Nat) (line : String)
    (m : LineMatch) :
    (searchMatch line.toList = some m →
      ((parseLogLine now dayStart line).type = LogType.stderr ↔
          ∃ l r, m.level.toList = l ++ ("ERROR".toList ++ r)) ∧
        (parseLogLine now dayStart line).message = line ∧
        (parseLogLine now dayStart line).timestamp =
          dayStart + clockSeconds m.timeStr * 1000) ∧
      (searchMatch line.toList = none →
        parseLogLine now dayStart line = ⟨now, line, LogType.stdout⟩) ∧
      parseLogLine 0 0 "[12:34:56] [Server thread/ERROR]: Oops" =
        ⟨(12 * 60 * 60 + 34 * 60 + 56) * 1000,
          "[12:34:56] [Server thread/ERROR]: Oops", LogType.stderr⟩ := by
  refine ⟨?_, ?_, ?_⟩
  · intro h
    rw [parseLogLine_of_match now dayStart line m h]
    refine ⟨?_, rfl, rfl⟩
    by_cases he : strIncludes m.level "ERROR" = true
    · simp only [he, if_true]
      simpa using (strIncludes_iff m.level "ERROR").mp he
    · simp only [he, if_false]
      constructor
      · intro hc
        exact absurd hc (by simp)
      · intro hc
        exact absurd ((strIncludes_iff m.level "ERROR").mpr hc) he
  · intro h
    exact parseLogLine_of_no_match now dayStart line h
  · decide

/-- Witness for C5 at the scenario line, whose match has level
`Server thread/ERROR`. -/
theorem claim_C5_log_file_reader_witness :
    ((parseLogLine 0 0 "[12:34:56] [Server thread/ERROR]: Oops").type =
        LogType.stderr ↔
      ∃ l r, ("Server thread/ERROR" : String).toList =
        l ++ (("ERROR" : String).toList ++ r)) ∧
      (parseLogLine 0 0 "[12:34:56] [Server thread/ERROR]: Oops").message =
        "[12:34:56] [Server thread/ERROR]: Oops" ∧
      (parseLogLine 0 0 "[12:34:56] [Server thread/ERROR]: Oops").timestamp =
        0 + clockSeconds "12:34:56" * 1000 :=
  (claim_C5_log_file_reader 0 0 "[12:34:56] [Server thread/ERROR]: Oops"
    ⟨"12:34:56", "Server thread/ERROR", "Oops"⟩).1 (by decide)

/-- C6: on an id with a live handle, `getServerLogs` returns the buffer
filtered by the optional type, then the optional case-insensitive search,
then cut to the last `limit` entries (default 100) in arrival order: the
result is the `lastN`-suffix of the filtered list, has at most `limit`
entries, and is a sublist of the buffer.  On a buffer holding one stdout
and one stderr entry, asking for type stderr with limit 1 returns exactly
the stderr entry. -/
theorem claim_C6_get_logs (reg : List (String × List LogEntry))
    (id : String) (logs : List LogEntry) (opts : LogFilter) :
    (lookupMap reg id = some logs →
      getServerLogsModel reg id opts =
          LogsResult.fromMem (getServerLogsMem logs opts) ∧
        getServerLogsMem logs opts =
          lastN (jsOrNat opts.limit? 100)
            (filterBySearch opts.search? (filterByType opts.type? logs)) ∧
        (getServerLogsMem logs opts).length ≤ jsOrNat opts.limit? 100 ∧
        (getServerLogsMem logs opts).Sublist logs) ∧
      getServerLogsModel
          [("alpha", [⟨0, "X", LogType.stdout⟩, ⟨1, "Y", LogType.stderr⟩])]
          "alpha" ⟨some LogType.stderr, none, some 1⟩ =
        LogsResult.fromMem [⟨1, "Y", LogType.stderr⟩] := by
  constructor
  · intro h
    have hmem : getServerLogsMem logs opts =
        lastN (jsOrNat opts.limit? 100)
          (filterBySearch opts.search? (filterByType opts.type? logs)) := by
      unfold getServerLogsMem
      exact jsSliceNeg_min_eq_lastN _ _ (jsOrNat_ne_zero opts.limit?)
    refine ⟨?_, hmem, ?_, ?_⟩
    · unfold getServerLogsModel
      rw [h]
    · rw [hmem]
      exact lastN_length_le _ _
    · rw [hmem]
      exact ((lastN_sublist _ _).trans
        (filterBySearch_sublist _ _)).trans (filterByType_sublist _ _)
  · decide

/-- Witness for C6 on the scenario registry: one instance under `alpha`
holding a stdout and a stderr entry. -/
theorem claim_C6_get_logs_witness :
    getServerLogsModel
        [("alpha", [⟨0, "X", LogType.stdout⟩, ⟨1, "Y", LogType.stderr⟩])]
        "alpha" ⟨some LogType.stderr, none, some 1⟩ =
      LogsResult.fromMem
        (getServerLogsMem [⟨0, "X", LogType.stdout⟩, ⟨1, "Y", LogType.stderr⟩]
          ⟨some LogType.stderr, none, some 1⟩) :=
  ((claim_C6_get_logs
    [("alpha", [⟨0, "X", LogType.stdout⟩, ⟨1, "Y", LogType.stderr⟩])]
    "alpha" [⟨0, "X", LogType.stdout⟩, ⟨1, "Y", LogType.stderr⟩]
    ⟨some LogType.stderr, none, some 1⟩).1 (by decide)).1

/-- C7: a `startServer` call that fails because the jar is absent or the
spawn fails leaves the registry without a handle for the id and spawns no
surviving process: every throw in `startServer` happens before
`runningServers.set`. -/
theorem claim_C7_failed_start_leaves_registry (e : StartEnv) :
    (startServerModel e).result = StartResult.jarMissing ∨
        (startServerModel e).result = StartResult.spawnFailed →
      (startServerModel e).inMapAfter = false ∧
        (startServerModel e).spawned = false := by
  rcases e with ⟨i, h, d, j, s⟩
  cases i <;> cases h <;> cases d <;> cases j <;> cases s <;> decide

/-- Witness for C7: missing jar in an existing directory. -/
theorem claim_C7_failed_start_witness :
    (startServerModel ⟨false, true, true, false, true⟩).inMapAfter = false ∧
      (startServerModel ⟨false, true, true, false, true⟩).spawned = false :=
  claim_C7_failed_start_leaves_registry ⟨false, true, true, false, true⟩
    (Or.inl (by decide))

/-- C8: the claim says a missing working directory makes `start` fail with
NotFound.  The code instead runs `fs.ensureDir` - creating the directory -
and proceeds; the call then fails with the missing-jar error (a fresh
directory holds no jar), not NotFound. -/
theorem claim_C8_counterexample :
    (startServerModel ⟨false, true, false, true, true⟩).result =
        StartResult.jarMissing ∧
      ¬(startServerModel ⟨false, true, false, true, true⟩).result =
        StartResult.notFound ∧
      (startServerModel ⟨false, true, false, true, true⟩).dirCreated =
        true := by
  decide

/-- C8 (amended): on a configured id whose working directory is absent,
`start` creates the directory, spawns nothing, and fails with the
missing-artifact error; NotFound arises only for an id with no
configuration record. -/
theorem claim_C8_missing_dir (e : StartEnv) (hm : e.inMap = false)
    (hr : e.hasRecord = true) (hd : e.dirOnDisk = false) :
    startServerModel e =
        ⟨StartResult.jarMissing, false, true, false⟩ ∧
      startServerModel ⟨false, false, false, false, false⟩ =
        ⟨StartResult.notFound, false, false, false⟩ := by
  rcases e with ⟨i, h, d, j, s⟩
  simp only at hm hr hd
  subst hm hr hd
  cases j <;> cases s <;> decide

/-- Witness for C8 (amended) with the jar flag and spawn flag set. -/
theorem claim_C8_missing_dir_witness :
    startServerModel ⟨false, true, false, true, true⟩ =
        ⟨StartResult.jarMissing, false, true, false⟩ ∧
      startServerModel ⟨false, false, false, false, false⟩ =
        ⟨StartResult.notFound, false, false, false⟩ :=
  claim_C8_missing_dir ⟨false, true, false, true, true⟩ rfl rfl rfl

/-- C9: the claim says a `sendCommand` whose target process has already
exited reports NotRunning.  The code checks only map membership, and the
stdin write to an exited child fails only asynchronously (unhandled
stream error after the call returns): with the instance still registered
but its process exited, `sendCommand` returns the success result, not the
not-running error. -/
theorem claim_C9_counterexample :
    (sendCommandModel 1000 5 (some ([], true)) "list").result =
        SendResult.sent ∧
      ¬(sendCommandModel 1000 5 (some ([], true)) "list").result =
        SendResult.notRunningErr := by
  decide

/-- C9 (amended): `sendCommand` reports the not-running error exactly when
the id is absent from the registry (so only after the exit notification
removed the handle); while the handle is still registered with its process
already exited, the call still reports success - the write failure is
emitted asynchronously on the unhandled stream error event only after the
call returns - and the command entry stays appended to the buffer.  No
liveness check is performed. -/
theorem claim_C9_send_command (maxLogs now : Nat) (logs : List LogEntry)
    (cmd : String) :
    (sendCommandModel maxLogs now none cmd).result =
        SendResult.notRunningErr ∧
      (sendCommandModel maxLogs now (some (logs, true)) cmd).result =
        SendResult.sent ∧
      (sendCommandModel maxLogs now
          (some (logs, true)) cmd).asyncWriteErrorPending = true ∧
      (sendCommandModel maxLogs now (some (logs, true)) cmd).logsAfter =
        pushBounded maxLogs logs
          ⟨now, "Command executed: " ++ cmd, LogType.command⟩ := by
  refine ⟨rfl, ?_, ?_, ?_⟩ <;> simp [sendCommandModel]

/-- C10: `updateServerProperties` on an id whose handle is registered
fails with the running error and mutates nothing: neither the stored
properties nor the on-disk properties file. -/
theorem claim_C10_no_update_while_running (e : PropsEnv)
    (newProps : List (String × String)) (hrec : e.hasRecord = true)
    (hrun : e.isRunning = true) :
    updateServerPropertiesModel e newProps =
      ⟨UpdateResult.runningErr, e.storedProps, none⟩ := by
  rcases e with ⟨h, r, props⟩
  simp only at hrec hrun
  subst hrec hrun
  rfl

/-- Witness for C10: a running server with one stored property and a
non-empty update. -/
theorem claim_C10_no_update_while_running_witness :
    updateServerPropertiesModel ⟨true, true, [("motd", "hi")]⟩
        [("motd", "bye")] =
      ⟨UpdateResult.runningErr, [("motd", "hi")], none⟩ :=
  claim_C10_no_update_while_running ⟨true, true, [("motd", "hi")]⟩
    [("motd", "bye")] rfl rfl

end JTS
